import Mathlib

/-!
Shallow embedding of the Elo rating ledger implemented in `src/main.py`
(a Streamlit ping-pong scorekeeping app), together with theorems settling
the specified properties of its core: `get_or_create_player`,
`expected_score`, `update_elo`, `leaderboard_rows`, the module-level
match-recording block, and the reset button.

Modelling choices:
* Python floats are modelled as real numbers; `10 ** x` is real
  exponentiation (`Real.rpow`).
* Python ints (the counters and the K-factor) are modelled as `ℤ`.
* `st.session_state.players` is a Python dict keyed by name; it is
  modelled as an insertion-ordered association list `List (String × Player)`
  (Python dicts preserve insertion order; new keys are appended at the end).
* `st.session_state.matches` is a list of match records; `insert(0, ...)`
  prepends.
* `round(x, 1)` is modelled as rounding `10 * x` to the nearest integer and
  dividing by `10`.  (Python rounds exact ties to even; no exact tie occurs
  in any concrete computation below, so the tie direction is immaterial.)
* `datetime.now()` is an external input; the wall-clock string is passed in
  as a parameter `now`.
-/

namespace PingPongElo

/-- One registry entry: the dict `{ rating, wins, losses, games }` created in
`get_or_create_player` (src/main.py lines 26-31). -/
structure Player where
  rating : ℝ
  wins : ℤ
  losses : ℤ
  games : ℤ

/-- The record a missing player is created with (src/main.py lines 26-31). -/
def defaultPlayer : Player := { rating := 1200, wins := 0, losses := 0, games := 0 }

/-- The player registry `st.session_state.players`: a name-keyed dict,
modelled as an insertion-ordered association list. -/
abbrev Registry : Type := List (String × Player)

/-- Dict lookup `players[name]`, as an `Option` (`none` models a missing key). -/
def lookup (ps : Registry) (n : String) : Option Player :=
  (List.find? (fun e => e.1 == n) ps).map (fun e => e.2)

/-- `get_or_create_player` (src/main.py lines 24-31): if `name not in players`,
insert the default record (at the end, as Python dict insertion does);
otherwise leave the registry untouched. -/
def get_or_create_player (ps : Registry) (n : String) : Registry :=
  if (lookup ps n).isSome then ps else ps ++ [(n, defaultPlayer)]

/-- `expected_score` (src/main.py lines 34-35):
`1.0 / (1.0 + 10 ** ((rating_b - rating_a) / 400.0))`. -/
noncomputable def expected_score (rating_a rating_b : ℝ) : ℝ :=
  1 / (1 + (10 : ℝ) ^ ((rating_b - rating_a) / 400))

/-- The effect of one Python statement `players[n] = ...` / `players[n][field] op= ...`:
rewrite the entry stored under key `n` (keys are unchanged). -/
def modifyPlayer (ps : Registry) (n : String) (f : Player → Player) : Registry :=
  ps.map (fun e => if e.1 == n then (e.1, f e.2) else e)

/-- The rating stored under name `n`.  Every read in `update_elo` happens after
`get_or_create_player`, so the `defaultPlayer` fallback is never exercised
there (in Python a missing key would raise `KeyError`). -/
def ratingOf (ps : Registry) (n : String) : ℝ := ((lookup ps n).getD defaultPlayer).rating

/-- One recorded match: the dict inserted at index 0 of
`st.session_state.matches` (src/main.py lines 187-196), with fields
Time / Winner / Loser / Δ Rating / K. -/
structure MatchRecord where
  time : String
  winner : String
  loser : String
  ratingDelta : ℝ
  k : ℤ

/-- The ledger state: the player registry and the match sequence held in
`st.session_state` (the field `matchLog` models `st.session_state.matches`;
the Python name collides with a Lean keyword). -/
structure LedgerState where
  players : Registry
  matchLog : List MatchRecord

/-- The state `initialize_state` produces on first run: empty registry,
empty match list (src/main.py lines 8-14). -/
def initialState : LedgerState := ⟨[], []⟩

/-- `update_elo` (src/main.py lines 38-59), statement by statement:
create both players if missing, read both ratings, compute expected scores
and deltas, assign the two new ratings, bump the four counters, and return
`(new winner rating, new loser rating, delta_w)`.  It does not touch the
match list. -/
noncomputable def update_elo (st : LedgerState) (winner loser : String) (k_factor : ℤ) :
    LedgerState × ℝ × ℝ × ℝ :=
  let ps1 := get_or_create_player st.players winner
  let ps2 := get_or_create_player ps1 loser
  let ra := ratingOf ps2 winner
  let rb := ratingOf ps2 loser
  let ea := expected_score ra rb
  let eb := 1 - ea
  let delta_w := (k_factor : ℝ) * (1 - ea)
  let delta_l := (k_factor : ℝ) * (0 - eb)
  let ps3 := modifyPlayer ps2 winner (fun p => { p with rating := ra + delta_w })
  let ps4 := modifyPlayer ps3 loser (fun p => { p with rating := rb + delta_l })
  let ps5 := modifyPlayer ps4 winner (fun p => { p with wins := p.wins + 1 })
  let ps6 := modifyPlayer ps5 winner (fun p => { p with games := p.games + 1 })
  let ps7 := modifyPlayer ps6 loser (fun p => { p with losses := p.losses + 1 })
  let ps8 := modifyPlayer ps7 loser (fun p => { p with games := p.games + 1 })
  (⟨ps8, st.matchLog⟩, ra + delta_w, rb + delta_l, delta_w)

/-- `round(x, 1)`: round to one decimal place (see module comment on ties). -/
noncomputable def round1 (x : ℝ) : ℝ := (round (x * 10) : ℤ) / 10

/-- The module-level match-recording block (src/main.py lines 185-196):
run `update_elo`, then insert at the front of `st.session_state.matches` the
record `{Time: now, Winner, Loser, Δ Rating: round(delta, 1), K: k_factor}`.
Returns the new state together with the triple `update_elo` returned. -/
noncomputable def record_match (st : LedgerState) (now : String) (winner loser : String)
    (k_factor : ℤ) : LedgerState × ℝ × ℝ × ℝ :=
  let r := update_elo st winner loser k_factor
  (⟨r.1.players, ⟨now, winner, loser, round1 r.2.2.2, k_factor⟩ :: r.1.matchLog⟩, r.2)

/-- One leaderboard display row (src/main.py lines 68-77).  The Python
`int(info["games"]) if info["games"] else 0` is the identity on an integer
(`0` maps to `0`), so the counters are carried over unchanged. -/
structure Row where
  name : String
  rating : ℝ
  games : ℤ
  wins : ℤ
  losses : ℤ
  winPct : ℝ

/-- The row derived for one registry entry (src/main.py lines 64-77):
rating rounded to one decimal, and
`win_rate = wins / games * 100.0 if games > 0 else 0.0`, rounded to one
decimal. -/
noncomputable def rowOf (e : String × Player) : Row :=
  { name := e.1
    rating := round1 e.2.rating
    games := e.2.games
    wins := e.2.wins
    losses := e.2.losses
    winPct := round1 (if 0 < e.2.games then (e.2.wins : ℝ) / (e.2.games : ℝ) * 100 else 0) }

/-- The Python sort key `(r["Rating"], r["Wins"], -r["Losses"])`, compared
lexicographically as Python compares tuples. -/
def sortKey (r : Row) : Lex (ℝ × Lex (ℤ × ℤ)) := toLex (r.rating, toLex (r.wins, -r.losses))

/-- The order `rows.sort(key=..., reverse=True)` establishes: `a` may precede
`b` exactly when the key of `a` is lexicographically ≥ the key of `b`. -/
noncomputable def rowLe (a b : Row) : Bool :=
  decide (sortKey b ≤ sortKey a)

/-- `leaderboard_rows` (src/main.py lines 62-79): one row per registry entry,
in registry order, then sorted descending by `(Rating, Wins, -Losses)`.
The Python in-place `rows.sort` mutates only the local list `rows`, never
`st.session_state`. -/
noncomputable def leaderboard_rows (st : LedgerState) : List Row :=
  (st.players.map rowOf).mergeSort rowLe

/-- `leaderboard_rows` as a state transformer, to state its frame property:
the function body only reads `st.session_state.players` (src/main.py
lines 62-79), so the session state it leaves behind is the one it was
given. -/
noncomputable def leaderboard_rows_st (st : LedgerState) : LedgerState × List Row :=
  (st, leaderboard_rows st)

/-- The reset button handler (src/main.py lines 139-142):
`st.session_state.players = {}` and `st.session_state.matches = []`. -/
def reset (_ : LedgerState) : LedgerState := ⟨[], []⟩

/-- The rating currently associated with name `n`: the stored rating when the
player exists, and the default rating 1200 a first appearance would create it
with otherwise. -/
def currentRating (st : LedgerState) (n : String) : ℝ := ratingOf st.players n

/-! ### Registry lookup lemmas -/

theorem lookup_modifyPlayer_self (ps : Registry) (n : String) (f : Player → Player) :
    lookup (modifyPlayer ps n f) n = (lookup ps n).map f := by
  unfold lookup modifyPlayer
  rw [List.find?_map]
  have hp : ((fun e : String × Player => e.1 == n) ∘
      fun e : String × Player => if e.1 == n then (e.1, f e.2) else e) =
      fun e : String × Player => e.1 == n := by
    funext e
    by_cases h : e.1 = n <;> simp [Function.comp, h]
  rw [hp]
  cases h : List.find? (fun e : String × Player => e.1 == n) ps with
  | none => simp
  | some e =>
    have he : e.1 = n := by simpa using List.find?_some h
    simp [he]

theorem lookup_modifyPlayer_ne (ps : Registry) (m n : String) (f : Player → Player)
    (hnm : n ≠ m) : lookup (modifyPlayer ps m f) n = lookup ps n := by
  unfold lookup modifyPlayer
  rw [List.find?_map]
  have hp : ((fun e : String × Player => e.1 == n) ∘
      fun e : String × Player => if e.1 == m then (e.1, f e.2) else e) =
      fun e : String × Player => e.1 == n := by
    funext e
    by_cases h : e.1 = m <;> simp [Function.comp, h]
  rw [hp]
  cases h : List.find? (fun e : String × Player => e.1 == n) ps with
  | none => simp
  | some e =>
    have he : e.1 = n := by simpa using List.find?_some h
    have hem : e.1 ≠ m := by rw [he]; exact hnm
    simp [hem]

theorem lookup_get_or_create_self (ps : Registry) (n : String) :
    lookup (get_or_create_player ps n) n = some ((lookup ps n).getD defaultPlayer) := by
  unfold get_or_create_player
  cases h : lookup ps n with
  | some p => simp [h]
  | none =>
    have hfind : List.find? (fun e : String × Player => e.1 == n) ps = none := by
      unfold lookup at h
      simpa using h
    unfold lookup
    simp [List.find?_append, hfind]

theorem lookup_get_or_create_ne (ps : Registry) (m n : String) (hnm : n ≠ m) :
    lookup (get_or_create_player ps m) n = lookup ps n := by
  unfold get_or_create_player
  split
  · rfl
  · unfold lookup
    simp [List.find?_append, Ne.symm hnm]

theorem ratingOf_get_or_create (ps : Registry) (m n : String) :
    ratingOf (get_or_create_player ps m) n = ratingOf ps n := by
  by_cases h : n = m
  · subst h
    rw [ratingOf, lookup_get_or_create_self]
    cases hl : lookup ps n <;> simp [ratingOf, hl]
  · rw [ratingOf, lookup_get_or_create_ne ps m n h, ratingOf]

theorem lookup_get_or_create_isSome (ps : Registry) (n : String) :
    (lookup (get_or_create_player ps n) n).isSome := by
  rw [lookup_get_or_create_self]; rfl

theorem ratingOf_goc_goc (ps : Registry) (w l n : String) :
    ratingOf (get_or_create_player (get_or_create_player ps w) l) n = ratingOf ps n := by
  rw [ratingOf_get_or_create, ratingOf_get_or_create]

/-! ### The rating each player ends up with after the six mutation statements
of `update_elo` (two rating assignments, four counter increments). -/

theorem ratingOf_update_chain_w (ps : Registry) (w l : String) (hne : w ≠ l)
    (hw : (lookup ps w).isSome) (nra nrb : ℝ) :
    ratingOf (modifyPlayer (modifyPlayer (modifyPlayer (modifyPlayer (modifyPlayer (modifyPlayer
        ps w (fun p => { p with rating := nra })) l (fun p => { p with rating := nrb }))
        w (fun p => { p with wins := p.wins + 1 })) w (fun p => { p with games := p.games + 1 }))
        l (fun p => { p with losses := p.losses + 1 })) l (fun p => { p with games := p.games + 1 }))
        w = nra := by
  obtain ⟨pw, hpw⟩ := Option.isSome_iff_exists.mp hw
  rw [ratingOf, lookup_modifyPlayer_ne _ _ _ _ hne, lookup_modifyPlayer_ne _ _ _ _ hne,
    lookup_modifyPlayer_self, lookup_modifyPlayer_self, lookup_modifyPlayer_ne _ _ _ _ hne,
    lookup_modifyPlayer_self, hpw]
  rfl

theorem ratingOf_update_chain_l (ps : Registry) (w l : String) (hne : w ≠ l)
    (hl : (lookup ps l).isSome) (nra nrb : ℝ) :
    ratingOf (modifyPlayer (modifyPlayer (modifyPlayer (modifyPlayer (modifyPlayer (modifyPlayer
        ps w (fun p => { p with rating := nra })) l (fun p => { p with rating := nrb }))
        w (fun p => { p with wins := p.wins + 1 })) w (fun p => { p with games := p.games + 1 }))
        l (fun p => { p with losses := p.losses + 1 })) l (fun p => { p with games := p.games + 1 }))
        l = nrb := by
  obtain ⟨pl, hpl⟩ := Option.isSome_iff_exists.mp hl
  rw [ratingOf, lookup_modifyPlayer_self, lookup_modifyPlayer_self,
    lookup_modifyPlayer_ne _ _ _ _ (Ne.symm hne), lookup_modifyPlayer_ne _ _ _ _ (Ne.symm hne),
    lookup_modifyPlayer_self, lookup_modifyPlayer_ne _ _ _ _ (Ne.symm hne), hpl]
  rfl

/-- What one `update_elo` call does, for distinct names: the returned triple,
the two stored ratings afterwards, and the untouched match list — all phrased
through the pre-call ratings (`currentRating`). -/
theorem update_elo_spec (st : LedgerState) (w l : String) (k : ℤ) (hne : w ≠ l) :
    (update_elo st w l k).2 =
        (currentRating st w + (k : ℝ) * (1 - expected_score (currentRating st w) (currentRating st l)),
         currentRating st l + (k : ℝ) * (0 - (1 - expected_score (currentRating st w) (currentRating st l))),
         (k : ℝ) * (1 - expected_score (currentRating st w) (currentRating st l))) ∧
      ratingOf (update_elo st w l k).1.players w =
        currentRating st w + (k : ℝ) * (1 - expected_score (currentRating st w) (currentRating st l)) ∧
      ratingOf (update_elo st w l k).1.players l =
        currentRating st l + (k : ℝ) * (0 - (1 - expected_score (currentRating st w) (currentRating st l))) ∧
      (update_elo st w l k).1.matchLog = st.matchLog := by
  have hw2s : (lookup (get_or_create_player (get_or_create_player st.players w) l) w).isSome := by
    rw [lookup_get_or_create_ne _ _ _ hne, lookup_get_or_create_self]
    rfl
  have hl2s : (lookup (get_or_create_player (get_or_create_player st.players w) l) l).isSome :=
    lookup_get_or_create_isSome _ _
  refine ⟨?_, ?_, ?_, rfl⟩
  · simp only [update_elo]
    rw [ratingOf_goc_goc, ratingOf_goc_goc]
    rfl
  · simp only [update_elo]
    rw [ratingOf_update_chain_w _ _ _ hne hw2s, ratingOf_goc_goc, ratingOf_goc_goc]
    rfl
  · simp only [update_elo]
    rw [ratingOf_update_chain_l _ _ _ hne hl2s, ratingOf_goc_goc, ratingOf_goc_goc]
    rfl

/-! ### How `record_match` relates to `update_elo` (definitional unfoldings). -/

theorem record_match_result (st : LedgerState) (now w l : String) (k : ℤ) :
    (record_match st now w l k).2 = (update_elo st w l k).2 := rfl

theorem record_match_players (st : LedgerState) (now w l : String) (k : ℤ) :
    (record_match st now w l k).1.players = (update_elo st w l k).1.players := rfl

theorem record_match_matchLog (st : LedgerState) (now w l : String) (k : ℤ) :
    (record_match st now w l k).1.matchLog =
      ⟨now, w, l, round1 (update_elo st w l k).2.2.2, k⟩ :: (update_elo st w l k).1.matchLog := rfl

/-! ### Facts about the logistic expected score -/

theorem expected_score_pos (a b : ℝ) : 0 < expected_score a b := by
  unfold expected_score
  have h10 : (0 : ℝ) < (10 : ℝ) ^ ((b - a) / 400) := Real.rpow_pos_of_pos (by norm_num) _
  positivity

theorem expected_score_lt_one (a b : ℝ) : expected_score a b < 1 := by
  unfold expected_score
  have h10 : (0 : ℝ) < (10 : ℝ) ^ ((b - a) / 400) := Real.rpow_pos_of_pos (by norm_num) _
  rw [div_lt_one (by linarith)]
  linarith

theorem expected_score_self (r : ℝ) : expected_score r r = 1 / 2 := by
  unfold expected_score
  rw [sub_self, zero_div, Real.rpow_zero]
  norm_num

/-! ### The claims -/

/-- C1: the expected score of the winner is the logistic value
`1 / (1 + 10 ^ ((rating(loser) - rating(winner)) / 400))`; in particular, for
a recorded match between distinct, non-empty names whose current ratings are
both 1200 and `k_factor = 32`, the new rating of the winner is 1216.0 and the
new rating of the loser is 1184.0 (both as returned and as stored in the
registry). -/
theorem record_match_equal_1200_gives_1216_1184 (st : LedgerState) (now w l : String)
    (hw : currentRating st w = 1200) (hl : currentRating st l = 1200)
    (hne : w ≠ l) (_hwne : w ≠ "") (_hlne : l ≠ "") :
    expected_score (currentRating st w) (currentRating st l) =
      1 / (1 + (10 : ℝ) ^ ((currentRating st l - currentRating st w) / 400)) ∧
    (record_match st now w l 32).2.1 = 1216 ∧
    (record_match st now w l 32).2.2.1 = 1184 ∧
    ratingOf (record_match st now w l 32).1.players w = 1216 ∧
    ratingOf (record_match st now w l 32).1.players l = 1184 := by
  obtain ⟨h2, hw', hl', -⟩ := update_elo_spec st w l 32 hne
  refine ⟨rfl, ?_, ?_, ?_, ?_⟩
  · rw [record_match_result, h2, hw, hl, expected_score_self]
    norm_num
  · rw [record_match_result, h2, hw, hl, expected_score_self]
    norm_num
  · rw [record_match_players, hw', hw, hl, expected_score_self]
    norm_num
  · rw [record_match_players, hl', hw, hl, expected_score_self]
    norm_num

/-- C1 witness: two fresh players in the initial state both have current
rating 1200, and the first recorded match with K = 32 produces 1216 / 1184. -/
theorem record_match_equal_1200_gives_1216_1184_witness :
    expected_score (currentRating initialState "A") (currentRating initialState "B") =
      1 / (1 + (10 : ℝ) ^ ((currentRating initialState "B" - currentRating initialState "A") / 400)) ∧
    (record_match initialState "t" "A" "B" 32).2.1 = 1216 ∧
    (record_match initialState "t" "A" "B" 32).2.2.1 = 1184 ∧
    ratingOf (record_match initialState "t" "A" "B" 32).1.players "A" = 1216 ∧
    ratingOf (record_match initialState "t" "A" "B" 32).1.players "B" = 1184 :=
  record_match_equal_1200_gives_1216_1184 initialState "t" "A" "B" rfl rfl
    (by decide) (by decide) (by decide)

/-- C2: for every recorded match between distinct names, the rating change of
the loser is the exact negative of the rating change of the winner. -/
theorem record_match_zero_sum (st : LedgerState) (now w l : String) (k : ℤ)
    (hne : w ≠ l) :
    currentRating (record_match st now w l k).1 l - currentRating st l =
      -(currentRating (record_match st now w l k).1 w - currentRating st w) := by
  obtain ⟨-, hw', hl', -⟩ := update_elo_spec st w l k hne
  have hw2 : currentRating (record_match st now w l k).1 w =
      currentRating st w +
        (k : ℝ) * (1 - expected_score (currentRating st w) (currentRating st l)) := by
    rw [currentRating, record_match_players, hw']
  have hl2 : currentRating (record_match st now w l k).1 l =
      currentRating st l +
        (k : ℝ) * (0 - (1 - expected_score (currentRating st w) (currentRating st l))) := by
    rw [currentRating, record_match_players, hl']
  rw [hw2, hl2]
  ring

/-- C2 witness: the zero-sum property at a concrete first match. -/
theorem record_match_zero_sum_witness :
    currentRating (record_match initialState "t" "A" "B" 32).1 "B" -
        currentRating initialState "B" =
      -(currentRating (record_match initialState "t" "A" "B" 32).1 "A" -
        currentRating initialState "A") :=
  record_match_zero_sum initialState "t" "A" "B" 32 (by decide)

/-- C10: for distinct names and a positive K-factor, the returned winner delta
lies strictly between 0 and the K-factor, the rating of the winner strictly
increases by that delta, and the rating of the loser strictly decreases by the
same amount. -/
theorem record_match_delta_strict_bounds (st : LedgerState) (now w l : String) (k : ℤ)
    (hne : w ≠ l) (hk : 0 < k) :
    0 < (record_match st now w l k).2.2.2 ∧
    (record_match st now w l k).2.2.2 < (k : ℝ) ∧
    currentRating (record_match st now w l k).1 w =
      currentRating st w + (record_match st now w l k).2.2.2 ∧
    currentRating (record_match st now w l k).1 l =
      currentRating st l - (record_match st now w l k).2.2.2 := by
  obtain ⟨h2, hw', hl', -⟩ := update_elo_spec st w l k hne
  have hkR : (0 : ℝ) < (k : ℝ) := by exact_mod_cast hk
  have he0 : 0 < expected_score (currentRating st w) (currentRating st l) :=
    expected_score_pos _ _
  have he1 : expected_score (currentRating st w) (currentRating st l) < 1 :=
    expected_score_lt_one _ _
  have hd : (record_match st now w l k).2.2.2 =
      (k : ℝ) * (1 - expected_score (currentRating st w) (currentRating st l)) := by
    rw [record_match_result, h2]
  refine ⟨?_, ?_, ?_, ?_⟩
  · rw [hd]
    nlinarith
  · rw [hd]
    nlinarith
  · rw [currentRating, record_match_players, hw', hd]
  · rw [currentRating, record_match_players, hl', hd]
    ring

/-- C10 witness: the strict bounds at a concrete first match with K = 32. -/
theorem record_match_delta_strict_bounds_witness :
    0 < (record_match initialState "t" "A" "B" 32).2.2.2 ∧
    (record_match initialState "t" "A" "B" 32).2.2.2 < ((32 : ℤ) : ℝ) ∧
    currentRating (record_match initialState "t" "A" "B" 32).1 "A" =
      currentRating initialState "A" + (record_match initialState "t" "A" "B" 32).2.2.2 ∧
    currentRating (record_match initialState "t" "A" "B" 32).1 "B" =
      currentRating initialState "B" - (record_match initialState "t" "A" "B" 32).2.2.2 :=
  record_match_delta_strict_bounds initialState "t" "A" "B" 32 (by decide) (by decide)

/-- C5 (amended): every `record_match` call prepends exactly one record to the
match sequence, and its rating-delta field is the computed winner delta
rounded to one decimal place (the code stores `round(delta, 1)`, not the exact
delta). -/
theorem record_match_prepends_rounded_delta (st : LedgerState) (now w l : String) (k : ℤ) :
    (record_match st now w l k).1.matchLog =
      ⟨now, w, l, round1 ((record_match st now w l k).2.2.2), k⟩ :: st.matchLog := rfl

/-- C5 counterexample: with stored ratings 1200 and 1600 and K = 32 the
computed winner delta is 320/11, but the record stores 29.1; the prepended
record does not carry the exact computed delta. -/
theorem record_match_delta_field_not_exact :
    ((record_match (⟨[("A", ⟨1200, 0, 0, 0⟩), ("B", ⟨1600, 0, 0, 0⟩)], []⟩ : LedgerState)
          "t" "A" "B" 32).1.matchLog.head?.map MatchRecord.ratingDelta) ≠
      some ((record_match (⟨[("A", ⟨1200, 0, 0, 0⟩), ("B", ⟨1600, 0, 0, 0⟩)], []⟩ : LedgerState)
          "t" "A" "B" 32).2.2.2) := by
  have hA : currentRating (⟨[("A", ⟨1200, 0, 0, 0⟩), ("B", ⟨1600, 0, 0, 0⟩)], []⟩ : LedgerState)
      "A" = 1200 := by
    simp [currentRating, ratingOf, lookup]
  have hB : currentRating (⟨[("A", ⟨1200, 0, 0, 0⟩), ("B", ⟨1600, 0, 0, 0⟩)], []⟩ : LedgerState)
      "B" = 1600 := by
    simp [currentRating, ratingOf, lookup]
  obtain ⟨h2, -, -, -⟩ :=
    update_elo_spec (⟨[("A", ⟨1200, 0, 0, 0⟩), ("B", ⟨1600, 0, 0, 0⟩)], []⟩ : LedgerState)
      "A" "B" 32 (by decide)
  have hexp : expected_score 1200 1600 = 1 / 11 := by
    unfold expected_score
    have h1 : ((1600 : ℝ) - 1200) / 400 = 1 := by norm_num
    rw [h1, Real.rpow_one]
    norm_num
  have hd : (record_match (⟨[("A", ⟨1200, 0, 0, 0⟩), ("B", ⟨1600, 0, 0, 0⟩)], []⟩ : LedgerState)
      "t" "A" "B" 32).2.2.2 = 320 / 11 := by
    rw [record_match_result, h2, hA, hB]
    rw [hexp]
    norm_num
  have hround : round1 (320 / 11 : ℝ) = 291 / 10 := by
    unfold round1
    have h1 : (320 / 11 : ℝ) * 10 = 3200 / 11 := by norm_num
    rw [h1, round_eq]
    have h2 : ⌊(3200 / 11 : ℝ) + 1 / 2⌋ = 291 := by
      rw [Int.floor_eq_iff] <;> norm_num
    rw [h2]
    norm_num
  rw [record_match_matchLog, hd]
  have hup : (update_elo (⟨[("A", ⟨1200, 0, 0, 0⟩), ("B", ⟨1600, 0, 0, 0⟩)], []⟩ : LedgerState)
      "A" "B" 32).2.2.2 = 320 / 11 := by
    rw [← record_match_result _ "t", hd]
  rw [hup, hround]
  simp only [List.head?_cons, Option.map_some]
  intro h
  have : (291 / 10 : ℝ) = 320 / 11 := by
    have := Option.some.inj h
    exact this
  norm_num at this

/-- C6: a name missing from the registry is created by `get_or_create_player`
with rating 1200.0 and zero counters, appended to the registry; a name already
present leaves the registry exactly as it was. -/
theorem get_or_create_player_spec (st : LedgerState) (n : String) :
    (lookup st.players n = none →
      lookup (get_or_create_player st.players n) n = some ⟨1200, 0, 0, 0⟩ ∧
      get_or_create_player st.players n = st.players ++ [(n, defaultPlayer)]) ∧
    (∀ p, lookup st.players n = some p → get_or_create_player st.players n = st.players) := by
  constructor
  · intro h
    constructor
    · rw [lookup_get_or_create_self, h]
      rfl
    · unfold get_or_create_player
      rw [h]
      rfl
  · intro p hp
    unfold get_or_create_player
    rw [hp]
    rfl

/-- C6 witness: creation of a fresh name in the empty registry, and
preservation of a registry already holding the name. -/
theorem get_or_create_player_spec_witness :
    (lookup (get_or_create_player initialState.players "A") "A" = some ⟨1200, 0, 0, 0⟩ ∧
      get_or_create_player initialState.players "A" = initialState.players ++ [("A", defaultPlayer)]) ∧
    get_or_create_player (⟨[("A", ⟨1300, 2, 1, 3⟩)], []⟩ : LedgerState).players "A" =
      (⟨[("A", ⟨1300, 2, 1, 3⟩)], []⟩ : LedgerState).players :=
  ⟨(get_or_create_player_spec initialState "A").1 rfl,
   (get_or_create_player_spec (⟨[("A", ⟨1300, 2, 1, 3⟩)], []⟩ : LedgerState) "A").2
     ⟨1300, 2, 1, 3⟩ (by simp [lookup])⟩

/-- C7: the reset button empties both the registry and the match sequence
(yielding the initial state, hence idempotence), the leaderboard is empty
afterwards, and a subsequent match between distinct names recreates both
players at the default rating 1200: the returned values are
`1200 ± k/2` with delta `k/2`. -/
theorem reset_spec (st : LedgerState) (now a b : String) (k : ℤ) (hab : a ≠ b) :
    reset st = initialState ∧
    reset (reset st) = reset st ∧
    leaderboard_rows (reset st) = [] ∧
    (record_match (reset st) now a b k).2 =
      (1200 + (k : ℝ) / 2, 1200 - (k : ℝ) / 2, (k : ℝ) / 2) := by
  refine ⟨rfl, rfl, ?_, ?_⟩
  · simp [leaderboard_rows, reset]
  · obtain ⟨h2, -, -, -⟩ := update_elo_spec (reset st) a b k hab
    have ha : currentRating (reset st) a = 1200 := rfl
    have hb : currentRating (reset st) b = 1200 := rfl
    rw [record_match_result, h2, ha, hb, expected_score_self]
    norm_num
    refine ⟨by ring, by ring, by ring⟩

/-- C7 witness: reset of a non-trivial state, followed by a K = 32 match. -/
theorem reset_spec_witness :
    reset (⟨[("X", ⟨900, 1, 0, 1⟩)], [⟨"s", "X", "Y", 3, 32⟩]⟩ : LedgerState) = initialState ∧
    reset (reset (⟨[("X", ⟨900, 1, 0, 1⟩)], [⟨"s", "X", "Y", 3, 32⟩]⟩ : LedgerState)) =
      reset (⟨[("X", ⟨900, 1, 0, 1⟩)], [⟨"s", "X", "Y", 3, 32⟩]⟩ : LedgerState) ∧
    leaderboard_rows (reset (⟨[("X", ⟨900, 1, 0, 1⟩)], [⟨"s", "X", "Y", 3, 32⟩]⟩ : LedgerState)) = [] ∧
    (record_match (reset (⟨[("X", ⟨900, 1, 0, 1⟩)], [⟨"s", "X", "Y", 3, 32⟩]⟩ : LedgerState))
        "t" "A" "B" 32).2 =
      (1200 + ((32 : ℤ) : ℝ) / 2, 1200 - ((32 : ℤ) : ℝ) / 2, ((32 : ℤ) : ℝ) / 2) :=
  reset_spec (⟨[("X", ⟨900, 1, 0, 1⟩)], [⟨"s", "X", "Y", 3, 32⟩]⟩ : LedgerState)
    "t" "A" "B" 32 (by decide)

/-! ### The counters invariant (C3) -/

/-- One submitted match form: the inputs of one module-level recording step. -/
structure MatchCmd where
  now : String
  winner : String
  loser : String
  k : ℤ

/-- Run a sequence of recorded matches starting from the fresh session state. -/
noncomputable def runMatches (cmds : List MatchCmd) : LedgerState :=
  cmds.foldl (fun st c => (record_match st c.now c.winner c.loser c.k).1) initialState

/-- Every registry entry has consistent, non-negative counters. -/
def CountersOk (ps : Registry) : Prop :=
  ∀ e ∈ ps, e.2.games = e.2.wins + e.2.losses ∧ 0 ≤ e.2.wins ∧ 0 ≤ e.2.losses ∧ 0 ≤ e.2.games

theorem countersOk_get_or_create (ps : Registry) (n : String) (h : CountersOk ps) :
    CountersOk (get_or_create_player ps n) := by
  unfold get_or_create_player
  split
  · exact h
  · intro e he
    rcases List.mem_append.mp he with h1 | h2
    · exact h e h1
    · simp only [List.mem_singleton] at h2
      subst h2
      refine ⟨rfl, le_refl 0, le_refl 0, le_refl 0⟩

theorem countersOk_update_elo (st : LedgerState) (w l : String) (k : ℤ)
    (h : CountersOk st.players) : CountersOk (update_elo st w l k).1.players := by
  have h2 : CountersOk (get_or_create_player (get_or_create_player st.players w) l) :=
    countersOk_get_or_create _ _ (countersOk_get_or_create _ _ h)
  intro e he
  simp only [update_elo, modifyPlayer, List.mem_map] at he
  obtain ⟨e5, ⟨e4, ⟨e3, ⟨e2, ⟨e1, ⟨e0, he0, rfl⟩, rfl⟩, rfl⟩, rfl⟩, rfl⟩, rfl⟩ := he
  obtain ⟨hg, hwn, hln, hgn⟩ := h2 e0 he0
  by_cases hew : (e0.1 == w) = true <;> by_cases hel : (e0.1 == l) = true <;>
    simp [hew, hel] <;> omega

theorem countersOk_record_match (st : LedgerState) (now w l : String) (k : ℤ)
    (h : CountersOk st.players) : CountersOk (record_match st now w l k).1.players := by
  rw [record_match_players]
  exact countersOk_update_elo st w l k h

/-- C3: starting from the empty ledger, after any sequence of recorded matches
with distinct winner and loser names, every registry entry satisfies
`games = wins + losses` with all three counters non-negative. -/
theorem runMatches_counters_ok (cmds : List MatchCmd)
    (_hdist : ∀ c ∈ cmds, c.winner ≠ c.loser) :
    ∀ e ∈ (runMatches cmds).players,
      e.2.games = e.2.wins + e.2.losses ∧ 0 ≤ e.2.wins ∧ 0 ≤ e.2.losses ∧ 0 ≤ e.2.games := by
  suffices h : ∀ (cs : List MatchCmd) (st : LedgerState), CountersOk st.players →
      CountersOk (cs.foldl (fun st c => (record_match st c.now c.winner c.loser c.k).1) st).players by
    exact h cmds initialState (by intro e he; cases he)
  intro cs
  induction cs with
  | nil => intro st hst; exact hst
  | cons c cs ih =>
    intro st hst
    exact ih _ (countersOk_record_match _ _ _ _ _ hst)

/-- C3 witness: a concrete two-match history with distinct names. -/
theorem runMatches_counters_ok_witness :
    CountersOk (runMatches [⟨"t1", "A", "B", 32⟩, ⟨"t2", "B", "C", 16⟩]).players :=
  runMatches_counters_ok [⟨"t1", "A", "B", 32⟩, ⟨"t2", "B", "C", 16⟩] (by decide)

/-! ### The leaderboard claims (C4, C8, C9) -/

theorem rowLe_trans (a b c : Row) : rowLe a b → rowLe b c → rowLe a c := by
  unfold rowLe
  intro h1 h2
  exact decide_eq_true (le_trans (of_decide_eq_true h2) (of_decide_eq_true h1))

theorem rowLe_total (a b : Row) : rowLe a b || rowLe b a := by
  unfold rowLe
  simp only [Bool.or_eq_true, decide_eq_true_eq]
  exact (le_total (sortKey b) (sortKey a)).imp id id

/-- C4: in the leaderboard output, whenever row `x` appears before row `y`,
either `x` has the strictly greater rating, or equal ratings and strictly more
wins, or equal ratings and wins and at most as many losses: the order is
descending by rating, then descending by wins, then ascending by losses. -/
theorem leaderboard_rows_sorted (st : LedgerState) :
    (leaderboard_rows st).Pairwise (fun x y =>
      x.rating > y.rating ∨
      (x.rating = y.rating ∧ x.wins > y.wins) ∨
      (x.rating = y.rating ∧ x.wins = y.wins ∧ x.losses ≤ y.losses)) := by
  have hs := List.sorted_mergeSort rowLe_trans rowLe_total (st.players.map rowOf)
  refine List.Pairwise.imp ?_ hs
  intro a b hab
  have h : sortKey b ≤ sortKey a := of_decide_eq_true hab
  simp only [sortKey, Prod.Lex.le_iff] at h
  rcases h with h | ⟨h1, h3 | ⟨h3, h4⟩⟩
  · exact Or.inl h
  · exact Or.inr (Or.inl ⟨h1.symm, h3⟩)
  · exact Or.inr (Or.inr ⟨h1.symm, h3.symm, by omega⟩)

/-- C8: every leaderboard row is derived from a registry entry, carrying its
counters unchanged, and its win-rate field is `wins / games * 100` rounded to
one decimal when `games > 0` and exactly 0.0 when `games = 0` (the division is
guarded by the `games > 0` test and never evaluated otherwise). -/
theorem leaderboard_rows_win_rate (st : LedgerState) (r : Row)
    (hr : r ∈ leaderboard_rows st) :
    ∃ e ∈ st.players, r.name = e.1 ∧ r.games = e.2.games ∧ r.wins = e.2.wins ∧
      r.losses = e.2.losses ∧
      (0 < r.games → r.winPct = round1 ((r.wins : ℝ) / (r.games : ℝ) * 100)) ∧
      (r.games = 0 → r.winPct = 0) := by
  unfold leaderboard_rows at hr
  rw [List.mem_mergeSort] at hr
  obtain ⟨e, he, rfl⟩ := List.mem_map.mp hr
  refine ⟨e, he, rfl, rfl, rfl, rfl, ?_, ?_⟩
  · intro hg
    have hg2 : 0 < e.2.games := hg
    simp [rowOf, hg2]
  · intro hg
    have hg2 : ¬ 0 < e.2.games := by
      have : e.2.games = 0 := hg
      omega
    simp [rowOf, hg2, round1]

/-- C8 witness: a single-player registry with 2 wins and 1 loss in 3 games. -/
theorem leaderboard_rows_win_rate_witness :
    ∃ e ∈ (⟨[("A", ⟨1250, 2, 1, 3⟩)], []⟩ : LedgerState).players,
      (rowOf ("A", ⟨1250, 2, 1, 3⟩)).name = e.1 ∧
      (rowOf ("A", ⟨1250, 2, 1, 3⟩)).games = e.2.games ∧
      (rowOf ("A", ⟨1250, 2, 1, 3⟩)).wins = e.2.wins ∧
      (rowOf ("A", ⟨1250, 2, 1, 3⟩)).losses = e.2.losses ∧
      (0 < (rowOf ("A", ⟨1250, 2, 1, 3⟩)).games →
        (rowOf ("A", ⟨1250, 2, 1, 3⟩)).winPct =
          round1 (((rowOf ("A", ⟨1250, 2, 1, 3⟩)).wins : ℝ) /
            ((rowOf ("A", ⟨1250, 2, 1, 3⟩)).games : ℝ) * 100)) ∧
      ((rowOf ("A", ⟨1250, 2, 1, 3⟩)).games = 0 →
        (rowOf ("A", ⟨1250, 2, 1, 3⟩)).winPct = 0) :=
  leaderboard_rows_win_rate (⟨[("A", ⟨1250, 2, 1, 3⟩)], []⟩ : LedgerState)
    (rowOf ("A", ⟨1250, 2, 1, 3⟩)) (by simp [leaderboard_rows])

/-- C9: `leaderboard_rows` is a pure read: it hands back the session state it
was given unchanged, a repeated call on that state returns the same rows, and
the rows depend only on the player registry (the match list is never read). -/
theorem leaderboard_rows_pure (st st2 : LedgerState) (hp : st.players = st2.players) :
    (leaderboard_rows_st st).1 = st ∧
    (leaderboard_rows_st ((leaderboard_rows_st st).1)).2 = (leaderboard_rows_st st).2 ∧
    leaderboard_rows st = leaderboard_rows st2 := by
  refine ⟨rfl, rfl, ?_⟩
  unfold leaderboard_rows
  rw [hp]

/-- C9 witness: two states with the same registry but different match lists. -/
theorem leaderboard_rows_pure_witness :
    (leaderboard_rows_st initialState).1 = initialState ∧
    (leaderboard_rows_st ((leaderboard_rows_st initialState).1)).2 =
      (leaderboard_rows_st initialState).2 ∧
    leaderboard_rows initialState =
      leaderboard_rows (⟨[], [⟨"t", "A", "B", 0, 32⟩]⟩ : LedgerState) :=
  leaderboard_rows_pure initialState (⟨[], [⟨"t", "A", "B", 0, 32⟩]⟩ : LedgerState) rfl

end PingPongElo
